import Mathlib

/-!
Verification of the image-compression pipeline of `img-compress`.

The pure helpers of `src/utils/imageUtils.ts` and `src/utils/pixoUtils.ts`
and the orchestration logic of `src/pixoClient.tsx` are embedded shallowly:
JavaScript numbers become rationals (`ℚ`), byte buffers become an index
function together with a size, thrown exceptions become `Except String`,
and the external decode step (`createImageBitmap` + canvas) becomes an
oracle parameter giving the outcome of the attempt at each resolution cap.
-/

/-- Constant `SUPPORTED_TYPES` from `src/utils/imageUtils.ts`. -/
def SUPPORTED_TYPES : List String := ["image/jpeg", "image/jpg", "image/png"]

/-- Constant `MAX_FILE_SIZE = 15 * 1024 * 1024` from `src/utils/imageUtils.ts`. -/
def MAX_FILE_SIZE : ℤ := 15 * 1024 * 1024

/-- Constant `MAX_CANVAS_DIMENSION` from `src/utils/imageUtils.ts`. -/
def MAX_CANVAS_DIMENSION : ℚ := 4096

/-- Constant `MIN_QUALITY = 0.1` from `src/utils/imageUtils.ts`. -/
def MIN_QUALITY : ℚ := 1/10

/-- Constant `MAX_QUALITY = 1.0` from `src/utils/imageUtils.ts`. -/
def MAX_QUALITY : ℚ := 1

/-- Constant `DECODE_MAX_DIMENSIONS = [4096, 2048, 1024]` from
`src/utils/pixoUtils.ts` (JavaScript numbers, so modelled as rationals). -/
def DECODE_MAX_DIMENSIONS : List ℚ := [4096, 2048, 1024]

/-- The `ImageDimensions` record of `src/utils/imageUtils.ts`
(JavaScript numbers modelled as rationals). -/
structure ImageDimensions where
  width : ℚ
  height : ℚ
deriving DecidableEq, Repr

/-- JavaScript `Math.round`: half-up rounding, `Math.round x = ⌊x + 0.5⌋`.
(`Rat.floor` is used so that the definition evaluates by `decide`;
`jsRound_eq_floor` relates it to `Int.floor`.) -/
def jsRound (x : ℚ) : ℤ := Rat.floor (x + 1/2)

theorem jsRound_eq_floor (x : ℚ) : jsRound x = ⌊x + 1/2⌋ := by
  rw [jsRound, Rat.floor_def', Rat.floor_def]

instance {ε α : Type} [DecidableEq ε] [DecidableEq α] : DecidableEq (Except ε α) := fun a b =>
  match a, b with
  | .ok x, .ok y =>
      if h : x = y then .isTrue (by rw [h]) else
        .isFalse (fun he => h (Except.ok.injEq x y ▸ he))
  | .error e, .error f =>
      if h : e = f then .isTrue (by rw [h]) else
        .isFalse (fun he => h (Except.error.injEq e f ▸ he))
  | .ok _, .error _ => .isFalse (fun he => Except.noConfusion he)
  | .error _, .ok _ => .isFalse (fun he => Except.noConfusion he)

/-- `isFileTypeSupported` from `src/utils/imageUtils.ts`. -/
def isFileTypeSupported (fileType : String) : Bool :=
  SUPPORTED_TYPES.contains fileType

/-- `isFileSizeValid` from `src/utils/imageUtils.ts`:
`fileSize > 0 && fileSize <= maxSize`. -/
def isFileSizeValid (fileSize : ℤ) (maxSize : ℤ) : Bool :=
  decide (fileSize > 0) && decide (fileSize ≤ maxSize)

/-- `clampQuality` from `src/utils/imageUtils.ts`:
`Math.max(MIN_QUALITY, Math.min(MAX_QUALITY, quality))`. -/
def clampQuality (quality : ℚ) : ℚ :=
  max MIN_QUALITY (min MAX_QUALITY quality)

/-- `calculateScaledDimensions` from `src/utils/imageUtils.ts`.
The thrown `Error("Width and height must be positive numbers")` becomes
`Except.error`. -/
def calculateScaledDimensions (width height maxDimension : ℚ) :
    Except String ImageDimensions :=
  if width ≤ 0 ∨ height ≤ 0 then
    .error "Width and height must be positive numbers"
  else if width ≤ maxDimension ∧ height ≤ maxDimension then
    .ok ⟨width, height⟩
  else if height < width then
    .ok ⟨maxDimension, (jsRound (height / width * maxDimension) : ℚ)⟩
  else
    .ok ⟨(jsRound (width / height * maxDimension) : ℚ), maxDimension⟩

/-- A byte sequence (`File` / `Blob` / `ArrayBuffer`): a total index function
together with a size.  All reads performed by the embedded code are guarded by
size checks, exactly as in the source, so values of `data` beyond `size` are
never consulted on well-formed executions. -/
structure ByteBuffer where
  data : ℕ → ℕ
  size : ℕ

/-- Build a buffer from an explicit byte list (out-of-range reads give 0). -/
def ByteBuffer.ofList (l : List ℕ) : ByteBuffer := ⟨fun i => l.getD i 0, l.length⟩

/-- `file.slice(0, n)`: same bytes, size capped at `n`. -/
def ByteBuffer.sliceTo (b : ByteBuffer) (n : ℕ) : ByteBuffer := ⟨b.data, min n b.size⟩

/-- `DataView.getUint16(i, false)`: big-endian 16-bit read. -/
def getUint16 (b : ByteBuffer) (i : ℕ) : ℕ := 256 * b.data i + b.data (i + 1)

/-- `DataView.getUint32(i, false)`: big-endian 32-bit read. -/
def getUint32 (b : ByteBuffer) (i : ℕ) : ℕ :=
  16777216 * b.data i + 65536 * b.data (i + 1) + 256 * b.data (i + 2) + b.data (i + 3)

/-- The message of the error thrown when `getImageDimensionsFromHeader` finds
no dimensions. -/
def headerErrorMessage : String := "Could not read image dimensions from file header"

/-- The frame-header test of the JPEG loop in `getImageDimensionsFromHeader`:
`marker >= 0xc0 && marker <= 0xcf && marker !== 0xc4 && marker !== 0xc8 &&
marker !== 0xcc`. -/
def isSOFMarker (marker : ℕ) : Bool :=
  decide (0xC0 ≤ marker) && decide (marker ≤ 0xCF) &&
    decide (marker ≠ 0xC4) && decide (marker ≠ 0xC8) && decide (marker ≠ 0xCC)

/-- The `while` loop of `getImageDimensionsFromHeader` walking JPEG marker
segments from `offset`, together with the `throw` that follows the loop:
while `offset + 4 < byteLength`, require `0xFF`, return `{width, height}` on a
frame-header marker when `offset + 9 <= byteLength`, otherwise advance by
`2 + segmentLength`.  Leaving the loop (or `break` on a non-`0xFF` byte)
reaches the final `throw`. -/
def findSOF (b : ByteBuffer) (offset : ℕ) : Except String ImageDimensions :=
  if h : offset + 4 < b.size then
    if b.data offset = 0xFF then
      if isSOFMarker (b.data (offset + 1)) ∧ offset + 9 ≤ b.size then
        .ok ⟨(getUint16 b (offset + 7) : ℚ), (getUint16 b (offset + 5) : ℚ)⟩
      else
        findSOF b (offset + 2 + getUint16 b (offset + 2))
    else
      .error headerErrorMessage
  else
    .error headerErrorMessage
termination_by b.size - offset
decreasing_by
  omega

/-- `getImageDimensionsFromHeader` from `src/utils/imageUtils.ts`.  The
function declares a single parameter and always slices the first 65536 bytes
(`const slice = file.slice(0, 65536)`); the PNG branch tests buffer length
`≥ 24` and only the first two signature bytes `0x89 0x50`. -/
def getImageDimensionsFromHeader (file : ByteBuffer) : Except String ImageDimensions :=
  let buffer := file.sliceTo 65536
  if 24 ≤ buffer.size ∧ buffer.data 0 = 0x89 ∧ buffer.data 1 = 0x50 then
    .ok ⟨(getUint32 buffer 16 : ℚ), (getUint32 buffer 20 : ℚ)⟩
  else if 2 ≤ buffer.size ∧ buffer.data 0 = 0xFF ∧ buffer.data 1 = 0xD8 then
    findSOF buffer 2
  else
    .error headerErrorMessage

/-- The dimension-reading phase of `extractPixels` (`src/pixoClient.tsx`):
fast path `getImageDimensionsFromHeader(data)`, and on failure the fallback
`getImageDimensionsFromHeader(data, data.size)`.  The implementation in
`imageUtils.ts` declares no second parameter, so the extra argument is
ignored and the fallback scans the same 65536-byte window. -/
def readOriginalDimensions (file : ByteBuffer) : Except String ImageDimensions :=
  match getImageDimensionsFromHeader file with
  | .ok dims => .ok dims
  | .error _ => getImageDimensionsFromHeader file

/-- The message of the unreachable `throw` after the retry loop of
`extractPixels`. -/
def decodeExhaustedMessage : String := "Failed to decode image at any supported resolution"

/-- The progressive decode-retry loop of `extractPixels` (`src/pixoClient.tsx`),
iterating over `DECODE_MAX_DIMENSIONS`.  `oracle maxDim` models the outcome of
the external attempt (`createImageBitmap` at the scaled size, canvas context
acquisition, `getImageData`, `rgbaToRgb`) at cap `maxDim`: `.ok rgb` for a
successful extraction, `.error e` for any thrown failure.  The
`calculateScaledDimensions` call sits outside the `try`, so its error
propagates immediately; a caught error is rethrown only when `maxDim` equals
`DECODE_MAX_DIMENSIONS[DECODE_MAX_DIMENSIONS.length - 1]`. -/
def decodeLoop {α : Type} (oracle : ℚ → Except String α)
    (originalWidth originalHeight : ℚ) : List ℚ → Except String (α × ImageDimensions)
  | [] => .error decodeExhaustedMessage
  | maxDim :: rest =>
    match calculateScaledDimensions originalWidth originalHeight maxDim with
    | .error e => .error e
    | .ok dims =>
      match oracle maxDim with
      | .ok rgb => .ok (rgb, dims)
      | .error e =>
        if maxDim = DECODE_MAX_DIMENSIONS.getD (DECODE_MAX_DIMENSIONS.length - 1) 0 then
          .error e
        else
          decodeLoop oracle originalWidth originalHeight rest

/-- `rgbaToRgb` from `src/utils/pixoUtils.ts`: the loop
`for (i = 0, j = 0; i < rgba.length; i += 4, j += 3)` copies input bytes
`4k, 4k+1, 4k+2` to output bytes `3k, 3k+1, 3k+2`, dropping the fourth byte of
each group.  For inputs whose length is a multiple of 4 (the well-formed case:
`getImageData` always returns one) this recursion performs exactly that loop. -/
def rgbaToRgb (rgba : List ℕ) : List ℕ :=
  match rgba with
  | r :: g :: b :: _ :: rest => r :: g :: b :: rgbaToRgb rest
  | _ => []
termination_by structural rgba

/-- Constant `PIXO_MIN_QUALITY` from `src/utils/pixoUtils.ts`. -/
def PIXO_MIN_QUALITY : ℚ := 1

/-- Constant `PIXO_MAX_QUALITY` from `src/utils/pixoUtils.ts`. -/
def PIXO_MAX_QUALITY : ℚ := 100

/-- The argument tuple of an `encodeJpeg(data, width, height, color_type,
quality, preset, subsampling_420)` call (the Pixo wasm encoder's interface). -/
structure EncodeJpegCall where
  width : ℚ
  height : ℚ
  colorType : ℕ
  quality : ℚ
  preset : ℕ
  subsampling420 : Bool
deriving DecidableEq

/-- The encode call made by `compressWithPixo` (`src/pixoClient.tsx`):
`encodeJpeg(rgb, width, height, 2, quality, 1, true)` — the caller-supplied
`quality` is passed through unmodified. -/
def compressWithPixoEncodeCall (dims : ImageDimensions) (quality : ℚ) : EncodeJpegCall :=
  ⟨dims.width, dims.height, 2, quality, 1, true⟩

/-- The quality handed to `canvas.convertToBlob` by the worker's
`self.onmessage` handler (raster backend): `validQuality = clampQuality(quality)`. -/
def workerConvertToBlobQuality (quality : ℚ) : ℚ := clampQuality quality

/-- The acceptance condition of `handleFileSelect` (`src/pixoClient.tsx`): the
file proceeds to compression only when its type is supported and
`isFileSizeValid(selectedFile.size)` holds (with the default ceiling
`MAX_FILE_SIZE`). -/
def handleFileSelectAccepts (fileType : String) (fileSize : ℤ) : Bool :=
  isFileTypeSupported fileType && isFileSizeValid fileSize MAX_FILE_SIZE

/-! ### Helper lemmas about `calculateScaledDimensions` -/

theorem calculateScaledDimensions_isOk (w h cap : ℚ) (hw : 0 < w) (hh : 0 < h) :
    ∃ d, calculateScaledDimensions w h cap = .ok d := by
  rw [calculateScaledDimensions]
  rw [if_neg (by push_neg; exact ⟨hw, hh⟩)]
  split
  · exact ⟨_, rfl⟩
  split
  · exact ⟨_, rfl⟩
  · exact ⟨_, rfl⟩

theorem jsRound_le_of_lt_add_half (x : ℚ) (n : ℤ) (hx : x + 1/2 < (n : ℚ) + 1) :
    jsRound x ≤ n := by
  rw [jsRound_eq_floor, Int.floor_le_iff]
  exact hx

theorem calculateScaledDimensions_le (w h : ℚ) (n : ℤ) (hn : 0 < n)
    (d : ImageDimensions) (hd : calculateScaledDimensions w h (n : ℚ) = .ok d) :
    d.width ≤ (n : ℚ) ∧ d.height ≤ (n : ℚ) := by
  rw [calculateScaledDimensions] at hd
  by_cases c1 : w ≤ 0 ∨ h ≤ 0
  · rw [if_pos c1] at hd
    exact absurd hd (by simp)
  rw [if_neg c1] at hd
  push_neg at c1
  obtain ⟨hw, hh⟩ := c1
  have hnq : (0 : ℚ) < (n : ℚ) := by exact_mod_cast hn
  by_cases c2 : w ≤ (n : ℚ) ∧ h ≤ (n : ℚ)
  · rw [if_pos c2] at hd
    obtain rfl : (⟨w, h⟩ : ImageDimensions) = d := Except.ok.inj hd
    exact c2
  rw [if_neg c2] at hd
  by_cases c3 : h < w
  · rw [if_pos c3] at hd
    obtain rfl : (⟨(n : ℚ), (jsRound (h / w * (n : ℚ)) : ℚ)⟩ : ImageDimensions) = d :=
      Except.ok.inj hd
    refine ⟨le_refl _, show ((jsRound (h / w * (n : ℚ)) : ℤ) : ℚ) ≤ (n : ℚ) from ?_⟩
    have hlt : h / w * (n : ℚ) < (n : ℚ) := by
      have h1 : h / w < 1 := (div_lt_one hw).mpr c3
      calc h / w * (n : ℚ) < 1 * (n : ℚ) := by
            exact mul_lt_mul_of_pos_right h1 hnq
        _ = (n : ℚ) := one_mul _
    exact_mod_cast jsRound_le_of_lt_add_half _ n (by linarith)
  · rw [if_neg c3] at hd
    obtain rfl : (⟨(jsRound (w / h * (n : ℚ)) : ℚ), (n : ℚ)⟩ : ImageDimensions) = d :=
      Except.ok.inj hd
    refine ⟨show ((jsRound (w / h * (n : ℚ)) : ℤ) : ℚ) ≤ (n : ℚ) from ?_, le_refl _⟩
    push_neg at c3
    have hle : w / h * (n : ℚ) ≤ (n : ℚ) := by
      have h1 : w / h ≤ 1 := (div_le_one hh).mpr c3
      calc w / h * (n : ℚ) ≤ 1 * (n : ℚ) := by
            exact mul_le_mul_of_nonneg_right h1 (le_of_lt hnq)
        _ = (n : ℚ) := one_mul _
    exact_mod_cast jsRound_le_of_lt_add_half _ n (by linarith)

/-! ### C1 — scaled dimensions fit the cap; no upscaling -/

/-- **C1** (amended: the cap bound requires an integer cap).  For every
width > 0, height > 0 and integer cap > 0, `calculateScaledDimensions`
returns dimensions whose larger side is at most the cap; and for every
rational cap, when both width and height are already ≤ cap it returns the
input pair unchanged (no upscaling).  For a fractional cap the bound can
fail by rounding — see the counterexample. -/
theorem scaled_dimensions_fit_cap_and_no_upscale :
    (∀ (w h : ℚ) (n : ℤ) (d : ImageDimensions), 0 < w → 0 < h → 0 < n →
      calculateScaledDimensions w h (n : ℚ) = .ok d →
      max d.width d.height ≤ (n : ℚ)) ∧
    (∀ w h cap : ℚ, 0 < w → 0 < h → w ≤ cap → h ≤ cap →
      calculateScaledDimensions w h cap = .ok ⟨w, h⟩) := by
  constructor
  · intro w h n d hw hh hn hd
    obtain ⟨h1, h2⟩ := calculateScaledDimensions_le w h n hn d hd
    exact max_le h1 h2
  · intro w h cap hw hh hwc hhc
    rw [calculateScaledDimensions, if_neg (by push_neg; exact ⟨hw, hh⟩), if_pos ⟨hwc, hhc⟩]

/-- **C1 counterexample**: at width 1000, height 999 and cap 10.6 (= 53/5),
the non-dominant side rounds to 11 > 10.6, so the larger returned side
exceeds the cap. -/
theorem scaled_dimensions_cap_exceeded_at_fractional_cap :
    calculateScaledDimensions 1000 999 (53/5) = .ok ⟨53/5, 11⟩ ∧
    ¬(max (53/5 : ℚ) 11 ≤ 53/5) := by
  constructor
  · rw [calculateScaledDimensions]
    norm_num [jsRound_eq_floor, Int.floor_eq_iff]
  · norm_num [max_le_iff]

/-- Witness for C1 at concrete inputs 8000×4000 with cap 4096 and 5×7 with
cap 10. -/
theorem scaled_dimensions_fit_cap_and_no_upscale_witness :
    max (4096 : ℚ) 2048 ≤ ((4096 : ℤ) : ℚ) ∧
    calculateScaledDimensions 5 7 10 = .ok ⟨5, 7⟩ := by
  constructor
  · exact scaled_dimensions_fit_cap_and_no_upscale.1 8000 4000 4096 ⟨4096, 2048⟩
      (by norm_num) (by norm_num) (by norm_num)
      (by rw [calculateScaledDimensions]; norm_num [jsRound_eq_floor, Int.floor_eq_iff])
  · exact scaled_dimensions_fit_cap_and_no_upscale.2 5 7 10
      (by norm_num) (by norm_num) (by norm_num) (by norm_num)

/-! ### C7 — invalid-dimension errors and positivity of results -/

/-- **C7** (amended: a successfully returned `ImageDimensions` need not have
both sides positive — only the dominant side is guaranteed positive; the
non-dominant side can round to 0).  `calculateScaledDimensions` fails with
the `InvalidDimensions` error whenever width ≤ 0 or height ≤ 0, and on
success with positive inputs and a positive cap the larger returned side is
strictly positive. -/
theorem scale_error_on_nonpositive_and_dominant_side_positive :
    (∀ w h cap : ℚ, w ≤ 0 ∨ h ≤ 0 →
      calculateScaledDimensions w h cap =
        .error "Width and height must be positive numbers") ∧
    (∀ (w h cap : ℚ) (d : ImageDimensions), 0 < w → 0 < h → 0 < cap →
      calculateScaledDimensions w h cap = .ok d → 0 < max d.width d.height) := by
  constructor
  · intro w h cap hneg
    rw [calculateScaledDimensions, if_pos hneg]
  · intro w h cap d hw hh hcap hd
    rw [calculateScaledDimensions, if_neg (by push_neg; exact ⟨hw, hh⟩)] at hd
    by_cases c2 : w ≤ cap ∧ h ≤ cap
    · rw [if_pos c2] at hd
      obtain rfl : (⟨w, h⟩ : ImageDimensions) = d := Except.ok.inj hd
      exact lt_max_iff.mpr (Or.inl hw)
    rw [if_neg c2] at hd
    by_cases c3 : h < w
    · rw [if_pos c3] at hd
      obtain rfl := Except.ok.inj hd
      exact lt_max_iff.mpr (Or.inl hcap)
    · rw [if_neg c3] at hd
      obtain rfl := Except.ok.inj hd
      exact lt_max_iff.mpr (Or.inr hcap)

/-- **C7 counterexample**: `calculateScaledDimensions 10000 1 100` succeeds
with height 0, so a successfully returned value can violate the claimed
strict-positivity invariant. -/
theorem scale_success_with_zero_height :
    calculateScaledDimensions 10000 1 100 = .ok ⟨100, 0⟩ ∧
    ¬(0 < (ImageDimensions.mk 100 0).height) := by
  constructor
  · rw [calculateScaledDimensions]
    norm_num [jsRound_eq_floor, Int.floor_eq_iff]
  · norm_num

/-- Witness for C7: the spec's own examples `scale(0,100,·)` and
`scale(100,-1,·)` fail, and 5×7 under cap 10 has a positive dominant side. -/
theorem scale_error_on_nonpositive_witness :
    calculateScaledDimensions 0 100 4096 =
      .error "Width and height must be positive numbers" ∧
    calculateScaledDimensions 100 (-1) 4096 =
      .error "Width and height must be positive numbers" ∧
    0 < max (5 : ℚ) 7 := by
  refine ⟨?_, ?_, ?_⟩
  · exact scale_error_on_nonpositive_and_dominant_side_positive.1 0 100 4096
      (Or.inl le_rfl)
  · exact scale_error_on_nonpositive_and_dominant_side_positive.1 100 (-1) 4096
      (Or.inr (by norm_num))
  · exact scale_error_on_nonpositive_and_dominant_side_positive.2 5 7 10 ⟨5, 7⟩
      (by norm_num) (by norm_num) (by norm_num)
      (by rw [calculateScaledDimensions]; norm_num)

/-! ### C8 — idempotence of scaling -/

/-- **C8** (amended: idempotence holds once the first result has both sides
positive; a degenerate result with a zero side makes the second application
fail instead — see the counterexample).  For every integer cap > 0, if
`calculateScaledDimensions w h cap = ok d` and both sides of `d` are
positive, then scaling `d` again with the same cap returns `d`. -/
theorem scale_idempotent_on_positive_results :
    ∀ (w h : ℚ) (n : ℤ) (d : ImageDimensions), 0 < n →
      calculateScaledDimensions w h (n : ℚ) = .ok d →
      0 < d.width → 0 < d.height →
      calculateScaledDimensions d.width d.height (n : ℚ) = .ok d := by
  intro w h n d hn hd hdw hdh
  obtain ⟨h1, h2⟩ := calculateScaledDimensions_le w h n hn d hd
  rw [calculateScaledDimensions, if_neg (by push_neg; exact ⟨hdw, hdh⟩), if_pos ⟨h1, h2⟩]

/-- **C8 counterexample**: `scale(scale(10000,1,100),100) ≠ scale(10000,1,100)`
— the first application returns `{100, 0}` and the second application then
throws on the zero height. -/
theorem scale_idempotence_fails_at_degenerate :
    (calculateScaledDimensions 10000 1 100).bind
        (fun d => calculateScaledDimensions d.width d.height 100) ≠
      calculateScaledDimensions 10000 1 100 := by
  have h1 : calculateScaledDimensions 10000 1 100 = .ok ⟨100, 0⟩ := by
    rw [calculateScaledDimensions]
    norm_num [jsRound_eq_floor, Int.floor_eq_iff]
  have h2 : calculateScaledDimensions 100 0 100 =
      .error "Width and height must be positive numbers" := by
    rw [calculateScaledDimensions, if_pos (Or.inr le_rfl)]
  rw [h1]
  simp only [Except.bind]
  rw [h2]
  simp

/-- Witness for C8: rescaling the result of `scale(8000,4000,4096)` with the
same cap returns it unchanged. -/
theorem scale_idempotent_on_positive_results_witness :
    calculateScaledDimensions 4096 2048 ((4096 : ℤ) : ℚ) = .ok ⟨4096, 2048⟩ :=
  scale_idempotent_on_positive_results 8000 4000 4096 ⟨4096, 2048⟩
    (by norm_num)
    (by rw [calculateScaledDimensions]; norm_num [jsRound_eq_floor, Int.floor_eq_iff])
    (by norm_num) (by norm_num)

/-! ### C2 — progressive decode retry -/

theorem decodeLoop_cons_ok {α : Type} (oracle : ℚ → Except String α)
    (ow oh m : ℚ) (rest : List ℚ) (d : ImageDimensions) (b : α)
    (hcalc : calculateScaledDimensions ow oh m = .ok d)
    (ho : oracle m = .ok b) :
    decodeLoop oracle ow oh (m :: rest) = .ok (b, d) := by
  simp only [decodeLoop, hcalc, ho]

theorem decodeLoop_cons_error_continue {α : Type} (oracle : ℚ → Except String α)
    (ow oh m : ℚ) (rest : List ℚ) (d : ImageDimensions) (e : String)
    (hcalc : calculateScaledDimensions ow oh m = .ok d)
    (ho : oracle m = .error e) (hm : m ≠ 1024) :
    decodeLoop oracle ow oh (m :: rest) = decodeLoop oracle ow oh rest := by
  simp only [decodeLoop, hcalc, ho]
  rw [if_neg]
  intro hcon
  exact hm (by simpa [DECODE_MAX_DIMENSIONS] using hcon)

theorem decodeLoop_cons_error_last {α : Type} (oracle : ℚ → Except String α)
    (ow oh : ℚ) (rest : List ℚ) (d : ImageDimensions) (e : String)
    (hcalc : calculateScaledDimensions ow oh 1024 = .ok d)
    (ho : oracle 1024 = .error e) :
    decodeLoop oracle ow oh (1024 :: rest) = .error e := by
  simp only [decodeLoop, hcalc, ho]
  rw [if_pos (by simp [DECODE_MAX_DIMENSIONS])]

/-- **C2**: the decode-retry loop tries the caps 4096, 2048, 1024 in that
order; a failure at one cap moves to the next smaller one; the first
successful attempt at cap `c` yields exactly the buffer of that attempt
paired with `calculateScaledDimensions(ow, oh, c)` (never a buffer from a
higher, failed cap); and when every cap fails, the error of the last
(smallest) cap's attempt is surfaced. -/
theorem decode_retry_loop_first_success :
    ∀ {α : Type} (oracle : ℚ → Except String α) (ow oh : ℚ), 0 < ow → 0 < oh →
      ((∀ (b : α) (d : ImageDimensions),
          calculateScaledDimensions ow oh 4096 = .ok d → oracle 4096 = .ok b →
          decodeLoop oracle ow oh DECODE_MAX_DIMENSIONS = .ok (b, d)) ∧
       (∀ (e : String) (b : α) (d : ImageDimensions),
          oracle 4096 = .error e →
          calculateScaledDimensions ow oh 2048 = .ok d → oracle 2048 = .ok b →
          decodeLoop oracle ow oh DECODE_MAX_DIMENSIONS = .ok (b, d)) ∧
       (∀ (e1 e2 : String) (b : α) (d : ImageDimensions),
          oracle 4096 = .error e1 → oracle 2048 = .error e2 →
          calculateScaledDimensions ow oh 1024 = .ok d → oracle 1024 = .ok b →
          decodeLoop oracle ow oh DECODE_MAX_DIMENSIONS = .ok (b, d)) ∧
       (∀ e1 e2 e3 : String,
          oracle 4096 = .error e1 → oracle 2048 = .error e2 → oracle 1024 = .error e3 →
          decodeLoop oracle ow oh DECODE_MAX_DIMENSIONS = .error e3)) := by
  intro α oracle ow oh hw hh
  obtain ⟨d1, hd1⟩ := calculateScaledDimensions_isOk ow oh 4096 hw hh
  obtain ⟨d2, hd2⟩ := calculateScaledDimensions_isOk ow oh 2048 hw hh
  obtain ⟨d3, hd3⟩ := calculateScaledDimensions_isOk ow oh 1024 hw hh
  refine ⟨?_, ?_, ?_, ?_⟩
  · intro b d hcalc ho
    exact decodeLoop_cons_ok oracle ow oh 4096 _ d b hcalc ho
  · intro e b d ho1 hcalc ho2
    rw [show DECODE_MAX_DIMENSIONS = 4096 :: [2048, 1024] from rfl,
      decodeLoop_cons_error_continue oracle ow oh 4096 _ d1 e hd1 ho1 (by norm_num)]
    exact decodeLoop_cons_ok oracle ow oh 2048 _ d b hcalc ho2
  · intro e1 e2 b d ho1 ho2 hcalc ho3
    rw [show DECODE_MAX_DIMENSIONS = 4096 :: [2048, 1024] from rfl,
      decodeLoop_cons_error_continue oracle ow oh 4096 _ d1 e1 hd1 ho1 (by norm_num),
      decodeLoop_cons_error_continue oracle ow oh 2048 _ d2 e2 hd2 ho2 (by norm_num)]
    exact decodeLoop_cons_ok oracle ow oh 1024 _ d b hcalc ho3
  · intro e1 e2 e3 ho1 ho2 ho3
    rw [show DECODE_MAX_DIMENSIONS = 4096 :: [2048, 1024] from rfl,
      decodeLoop_cons_error_continue oracle ow oh 4096 _ d1 e1 hd1 ho1 (by norm_num),
      decodeLoop_cons_error_continue oracle ow oh 2048 _ d2 e2 hd2 ho2 (by norm_num)]
    exact decodeLoop_cons_error_last oracle ow oh _ d3 e3 hd3 ho3

/-- Witness for C2: an 8000×4000 image whose decode attempts fail at 4096
and 2048 and succeed at 1024 produces the buffer of the 1024 attempt with
dimensions 1024×512. -/
theorem decode_retry_loop_first_success_witness :
    decodeLoop (fun c => if c = 1024 then Except.ok 0 else Except.error "oom")
        8000 4000 DECODE_MAX_DIMENSIONS = .ok ((0 : ℕ), ⟨1024, 512⟩) :=
  (decode_retry_loop_first_success
      (fun c => if c = 1024 then Except.ok 0 else Except.error "oom")
      8000 4000 (by norm_num) (by norm_num)).2.2.1 "oom" "oom" 0 ⟨1024, 512⟩
    (by norm_num) (by norm_num)
    (by rw [calculateScaledDimensions]; norm_num [jsRound_eq_floor, Int.floor_eq_iff])
    (by norm_num)

/-! ### C3 — the fallback header scan does not widen the window -/

/-- A 70000-byte JPEG whose APP1 segment (declared length 0xFFFD = 65533)
pushes the SOF0 frame header (height 500, width 700) to offset 65537, just
past the 65536-byte scan window. -/
def bigJpeg : ByteBuffer :=
  ⟨fun i =>
    if i = 0 then 0xFF else if i = 1 then 0xD8
    else if i = 2 then 0xFF else if i = 3 then 0xE1
    else if i = 4 then 0xFF else if i = 5 then 0xFD
    else if i = 65537 then 0xFF else if i = 65538 then 0xC0
    else if i = 65539 then 0x00 else if i = 65540 then 0x11
    else if i = 65541 then 0x08
    else if i = 65542 then 0x01 else if i = 65543 then 0xF4
    else if i = 65544 then 0x02 else if i = 65545 then 0xBC
    else 0, 70000⟩

/-- **C3** (code-bug evidence): on `bigJpeg` the dimension-reading phase of
`extractPixels` fails outright — the fallback call rescans the same
65536-byte window because `getImageDimensionsFromHeader` ignores its extra
argument — even though a scan of the full byte sequence (second conjunct)
does find the SOF0 header with width 700 and height 500. -/
theorem fallback_scan_window_not_widened :
    readOriginalDimensions bigJpeg = .error headerErrorMessage ∧
    findSOF bigJpeg 2 = .ok ⟨700, 500⟩ := by
  have hprobe : getImageDimensionsFromHeader bigJpeg = .error headerErrorMessage := by
    simp only [getImageDimensionsFromHeader, ByteBuffer.sliceTo, bigJpeg]
    norm_num
    rw [findSOF]
    norm_num [isSOFMarker, getUint16]
    rw [findSOF]
    norm_num
  constructor
  · simp only [readOriginalDimensions, hprobe]
  · rw [findSOF]
    simp only [bigJpeg]
    norm_num [isSOFMarker, getUint16]
    rw [findSOF]
    simp only [bigJpeg]
    norm_num [isSOFMarker, getUint16]

/-! ### C5 — header probe on concrete vectors -/

/-- A well-formed PNG header: full 8-byte signature, IHDR with width 800
(`0x00000320`) at offset 16 and height 600 (`0x00000258`) at offset 20. -/
def pngTestBytes : List ℕ :=
  [0x89, 0x50, 0x4E, 0x47, 0x0D, 0x0A, 0x1A, 0x0A, 0, 0, 0, 0x0D,
   0x49, 0x48, 0x44, 0x52, 0, 0, 0x03, 0x20, 0, 0, 0x02, 0x58, 0x08, 0x02, 0, 0]

/-- A JPEG: SOI, an APP0 segment of declared length 16, then an SOF0 frame
header with height 500 and width 700. -/
def jpegSOF0Bytes : List ℕ :=
  [0xFF, 0xD8, 0xFF, 0xE0, 0x00, 0x10, 0, 0, 0, 0, 0, 0, 0, 0, 0, 0, 0, 0, 0, 0,
   0xFF, 0xC0, 0x00, 0x11, 0x08, 0x01, 0xF4, 0x02, 0xBC]

/-- A progressive JPEG: SOI followed directly by an SOF2 frame header with
height 1024 and width 1536. -/
def jpegSOF2Bytes : List ℕ :=
  [0xFF, 0xD8, 0xFF, 0xC2, 0x00, 0x11, 0x08, 0x04, 0x00, 0x06, 0x00]

/-- The first three bytes of a GIF signature (`"GIF"`). -/
def gifBytes : List ℕ := [0x47, 0x49, 0x46]

/-- **C5**: the header probe returns 800×600 on the well-formed PNG vector,
700×500 on the SOF0 JPEG vector, 1536×1024 on the SOF2 (progressive) JPEG
vector, and fails with the header-parse error on a GIF signature and on a
truncated (empty) buffer. -/
theorem header_probe_concrete_vectors :
    getImageDimensionsFromHeader (ByteBuffer.ofList pngTestBytes) = .ok ⟨800, 600⟩ ∧
    getImageDimensionsFromHeader (ByteBuffer.ofList jpegSOF0Bytes) = .ok ⟨700, 500⟩ ∧
    getImageDimensionsFromHeader (ByteBuffer.ofList jpegSOF2Bytes) = .ok ⟨1536, 1024⟩ ∧
    getImageDimensionsFromHeader (ByteBuffer.ofList gifBytes) = .error headerErrorMessage ∧
    getImageDimensionsFromHeader (ByteBuffer.ofList []) = .error headerErrorMessage := by
  refine ⟨?_, ?_, ?_, ?_, ?_⟩
  · simp only [getImageDimensionsFromHeader, ByteBuffer.sliceTo, ByteBuffer.ofList,
      getUint32, pngTestBytes]
    norm_num
  · simp only [getImageDimensionsFromHeader, ByteBuffer.sliceTo, ByteBuffer.ofList,
      jpegSOF0Bytes]
    norm_num
    rw [findSOF]
    norm_num [isSOFMarker, getUint16]
    rw [findSOF]
    norm_num [isSOFMarker, getUint16]
  · simp only [getImageDimensionsFromHeader, ByteBuffer.sliceTo, ByteBuffer.ofList,
      jpegSOF2Bytes]
    norm_num
    rw [findSOF]
    norm_num [isSOFMarker, getUint16]
  · simp only [getImageDimensionsFromHeader, ByteBuffer.sliceTo, ByteBuffer.ofList,
      gifBytes]
    norm_num
  · simp only [getImageDimensionsFromHeader, ByteBuffer.sliceTo, ByteBuffer.ofList]
    norm_num

/-! ### C6 — the PNG branch checks only two signature bytes -/

/-- **C6** (amended): the PNG branch is taken iff the buffer (after the
65536-byte slice) has length ≥ 24 and its first TWO bytes are 0x89 0x50; the
remaining six bytes of the PNG signature are not checked, so a buffer
matching only this two-byte prefix still yields PNG dimensions.
Sufficiency (first conjunct): under those two conditions the probe returns
the big-endian 32-bit reads at offsets 16 and 20.  Necessity (second
conjunct): when either condition fails, the PNG-offset read is never
performed — the result is the JPEG marker walk's outcome (for a buffer
passing the 0xFF 0xD8 check) or the header-parse error. -/
theorem png_branch_checks_two_signature_bytes :
    (∀ f : ByteBuffer, 24 ≤ min 65536 f.size → f.data 0 = 0x89 → f.data 1 = 0x50 →
      getImageDimensionsFromHeader f =
        .ok ⟨(getUint32 (f.sliceTo 65536) 16 : ℚ), (getUint32 (f.sliceTo 65536) 20 : ℚ)⟩) ∧
    (∀ f : ByteBuffer, ¬(24 ≤ min 65536 f.size ∧ f.data 0 = 0x89 ∧ f.data 1 = 0x50) →
      getImageDimensionsFromHeader f = findSOF (f.sliceTo 65536) 2 ∨
      getImageDimensionsFromHeader f = .error headerErrorMessage) := by
  constructor
  · intro f h24 h0 h1
    simp only [getImageDimensionsFromHeader, ByteBuffer.sliceTo]
    rw [if_pos ⟨h24, h0, h1⟩]
  · intro f hneg
    simp only [getImageDimensionsFromHeader, ByteBuffer.sliceTo]
    rw [if_neg hneg]
    split
    · left
      rfl
    · right
      rfl

/-- A 24-byte buffer beginning 0x89 0x50 whose third byte is not the next
PNG signature byte 0x4E. -/
def fakePngBytes : List ℕ :=
  [0x89, 0x50, 0, 0, 0, 0, 0, 0, 0, 0, 0, 0, 0, 0, 0, 0, 0, 0, 0, 0, 0, 0, 0, 0]

/-- **C6 counterexample**: `fakePngBytes` matches only a proper prefix of the
8-byte PNG signature (its byte 2 differs from the signature's 0x4E), yet the
probe still takes the PNG branch and returns dimensions. -/
theorem png_branch_without_full_signature :
    (ByteBuffer.ofList fakePngBytes).data 2 ≠ 0x4E ∧
    getImageDimensionsFromHeader (ByteBuffer.ofList fakePngBytes) = .ok ⟨0, 0⟩ := by
  constructor
  · decide
  · simp only [getImageDimensionsFromHeader, ByteBuffer.sliceTo, ByteBuffer.ofList,
      getUint32, fakePngBytes]
    norm_num

/-- Witness for C6: sufficiency at the well-formed PNG vector, necessity at
the GIF vector (whose first byte fails the 0x89 check). -/
theorem png_branch_checks_two_signature_bytes_witness :
    (getImageDimensionsFromHeader (ByteBuffer.ofList pngTestBytes) =
      .ok ⟨(getUint32 ((ByteBuffer.ofList pngTestBytes).sliceTo 65536) 16 : ℚ),
           (getUint32 ((ByteBuffer.ofList pngTestBytes).sliceTo 65536) 20 : ℚ)⟩) ∧
    (getImageDimensionsFromHeader (ByteBuffer.ofList gifBytes) =
        findSOF ((ByteBuffer.ofList gifBytes).sliceTo 65536) 2 ∨
      getImageDimensionsFromHeader (ByteBuffer.ofList gifBytes) =
        .error headerErrorMessage) :=
  ⟨png_branch_checks_two_signature_bytes.1 (ByteBuffer.ofList pngTestBytes)
      (by decide) (by decide) (by decide),
   png_branch_checks_two_signature_bytes.2 (ByteBuffer.ofList gifBytes) (by decide)⟩

/-! ### C4 — quality at the encode boundary -/

/-- **C4** (amended): the raster (canvas) backend worker clamps the
caller-supplied quality into `[0.1, 1.0]` via `clampQuality` before calling
`convertToBlob`; but `compressWithPixo` passes the caller-supplied quality to
`encodeJpeg` unmodified, so the codec (Pixo wasm) backend receives a value in
its native domain `[1, 100]` only when the caller already supplies one (in
the app, the slider constrains it to integers 1–100). -/
theorem quality_conversion_at_encode_boundary :
    (∀ q : ℚ, MIN_QUALITY ≤ workerConvertToBlobQuality q ∧
      workerConvertToBlobQuality q ≤ MAX_QUALITY) ∧
    (∀ (d : ImageDimensions) (q : ℚ), (compressWithPixoEncodeCall d q).quality = q) := by
  constructor
  · intro q
    simp only [workerConvertToBlobQuality, clampQuality]
    constructor
    · exact le_max_left _ _
    · exact max_le (by norm_num [MIN_QUALITY, MAX_QUALITY]) (min_le_left _ _)
  · intro d q
    rfl

/-- **C4 counterexample**: with caller-supplied quality 150, the Pixo encode
call receives 150, which is outside the codec backend's native domain
`[1, 100]` — no conversion or clamp happens at this boundary. -/
theorem pixo_encode_receives_unclamped_quality :
    (compressWithPixoEncodeCall ⟨100, 100⟩ 150).quality = 150 ∧
    ¬(PIXO_MIN_QUALITY ≤ (compressWithPixoEncodeCall ⟨100, 100⟩ 150).quality ∧
      (compressWithPixoEncodeCall ⟨100, 100⟩ 150).quality ≤ PIXO_MAX_QUALITY) := by
  constructor
  · rfl
  · intro hcon
    have h2 := hcon.2
    norm_num [compressWithPixoEncodeCall, PIXO_MAX_QUALITY] at h2

/-! ### C10 — byte-size validation -/

/-- **C10**: `isFileSizeValid` (with the default ceiling `MAX_FILE_SIZE`)
accepts a size exactly when `0 < size ≤ 15 * 1024 * 1024`; in particular
`handleFileSelect` refuses every zero-byte or negative-size input whatever
its type. -/
theorem file_size_validation_bounds :
    (∀ s : ℤ, isFileSizeValid s MAX_FILE_SIZE = true ↔
      0 < s ∧ s ≤ 15 * 1024 * 1024) ∧
    (∀ (t : String) (s : ℤ), s ≤ 0 → handleFileSelectAccepts t s = false) := by
  constructor
  · intro s
    simp only [isFileSizeValid, MAX_FILE_SIZE, Bool.and_eq_true, decide_eq_true_eq]
  · intro t s hs
    have hfalse : decide (s > 0) = false := by
      simp only [decide_eq_false_iff_not]
      omega
    simp [handleFileSelectAccepts, isFileSizeValid, hfalse]

/-- Witness for C10: a 0-byte PNG (below the ceiling) is refused. -/
theorem file_size_validation_bounds_witness :
    (0 : ℤ) ≤ 0 ∧ handleFileSelectAccepts "image/png" 0 = false :=
  ⟨le_refl 0, file_size_validation_bounds.2 "image/png" 0 (le_refl 0)⟩

/-! ### C9 — alpha stripping -/

theorem rgbaToRgb_length : ∀ l : List ℕ, (rgbaToRgb l).length = 3 * (l.length / 4)
  | [] => rfl
  | [_] => by simp [rgbaToRgb]
  | [_, _] => by simp [rgbaToRgb]
  | [_, _, _] => by simp [rgbaToRgb]
  | _ :: _ :: _ :: _ :: rest => by
      simp only [rgbaToRgb, List.length_cons, rgbaToRgb_length rest]
      omega

theorem rgbaToRgb_getD (k : ℕ) :
    ∀ (l : List ℕ) (t : ℕ), t < 3 → 4 * k + 4 ≤ l.length →
      (rgbaToRgb l).getD (3 * k + t) 0 = l.getD (4 * k + t) 0 := by
  induction k with
  | zero =>
      intro l t ht hl
      match l with
      | [] => simp only [List.length_nil] at hl; omega
      | [a] => simp only [List.length_cons, List.length_nil] at hl; omega
      | [a, b] => simp only [List.length_cons, List.length_nil] at hl; omega
      | [a, b, c] => simp only [List.length_cons, List.length_nil] at hl; omega
      | a :: b :: c :: d :: rest =>
          interval_cases t
          · rfl
          · rfl
          · rfl
  | succ k ih =>
      intro l t ht hl
      match l with
      | [] => simp only [List.length_nil] at hl; omega
      | [a] => simp only [List.length_cons, List.length_nil] at hl; omega
      | [a, b] => simp only [List.length_cons, List.length_nil] at hl; omega
      | [a, b, c] => simp only [List.length_cons, List.length_nil] at hl; omega
      | a :: b :: c :: d :: rest =>
          have e1 : 3 * (k + 1) + t = (3 * k + t) + 3 := by ring
          have e2 : 4 * (k + 1) + t = (4 * k + t) + 4 := by ring
          rw [e1, e2]
          have hrest : 4 * k + 4 ≤ rest.length := by
            simp only [List.length_cons] at hl
            omega
          calc (rgbaToRgb (a :: b :: c :: d :: rest)).getD ((3 * k + t) + 3) 0
              = (rgbaToRgb rest).getD (3 * k + t) 0 := rfl
            _ = rest.getD (4 * k + t) 0 := ih rest t ht hrest
            _ = (a :: b :: c :: d :: rest).getD ((4 * k + t) + 4) 0 := rfl

theorem rgbaToRgb_eq_of_agree_off_alpha (l₁ l₂ : List ℕ)
    (hlen : l₁.length = l₂.length)
    (h : ∀ i, i % 4 ≠ 3 → l₁.getD i 0 = l₂.getD i 0) :
    rgbaToRgb l₁ = rgbaToRgb l₂ := by
  apply List.ext_getElem (by rw [rgbaToRgb_length, rgbaToRgb_length, hlen])
  intro j h₁ h₂
  have h₁' := h₁
  rw [rgbaToRgb_length] at h₁'
  have ht3 : j % 3 < 3 := by omega
  have hlb1 : 4 * (j / 3) + 4 ≤ l₁.length := by omega
  have hlb2 : 4 * (j / 3) + 4 ≤ l₂.length := by omega
  have hmod : (4 * (j / 3) + j % 3) % 4 ≠ 3 := by omega
  have hj : j = 3 * (j / 3) + j % 3 := by omega
  rw [← List.getD_eq_getElem (rgbaToRgb l₁) 0 h₁,
    ← List.getD_eq_getElem (rgbaToRgb l₂) 0 h₂, hj,
    rgbaToRgb_getD (j / 3) l₁ (j % 3) ht3 hlb1,
    rgbaToRgb_getD (j / 3) l₂ (j % 3) ht3 hlb2]
  exact h (4 * (j / 3) + j % 3) hmod

/-- **C9**: for every RGBA input whose length is a multiple of 4,
`rgbaToRgb` returns a buffer of exactly 3/4 the input length; for each pixel
group `k`, output bytes `3k, 3k+1, 3k+2` equal input bytes `4k, 4k+1, 4k+2`;
the dropped fourth byte never affects the output (two inputs agreeing off
the alpha positions give equal outputs); and empty input yields empty
output. -/
theorem rgbaToRgb_strips_alpha :
    (∀ l : List ℕ, 4 ∣ l.length → (rgbaToRgb l).length = 3 * (l.length / 4)) ∧
    (∀ (l : List ℕ) (k t : ℕ), 4 ∣ l.length → t < 3 → 4 * k + 4 ≤ l.length →
      (rgbaToRgb l).getD (3 * k + t) 0 = l.getD (4 * k + t) 0) ∧
    (∀ l₁ l₂ : List ℕ, l₁.length = l₂.length →
      (∀ i, i % 4 ≠ 3 → l₁.getD i 0 = l₂.getD i 0) →
      rgbaToRgb l₁ = rgbaToRgb l₂) ∧
    rgbaToRgb [] = [] :=
  ⟨fun l _ => rgbaToRgb_length l,
   fun l k t _ ht hl => rgbaToRgb_getD k l t ht hl,
   rgbaToRgb_eq_of_agree_off_alpha,
   rfl⟩

/-- Witness for C9 on the single-pixel vectors `[255,128,64,200]` and
`[255,128,64,77]`: length 3, first byte preserved, alpha irrelevant. -/
theorem rgbaToRgb_strips_alpha_witness :
    (rgbaToRgb [255, 128, 64, 200]).length = 3 * ([255, 128, 64, 200].length / 4) ∧
    (rgbaToRgb [255, 128, 64, 200]).getD (3 * 0 + 0) 0 =
      [255, 128, 64, 200].getD (4 * 0 + 0) 0 ∧
    rgbaToRgb [255, 128, 64, 200] = rgbaToRgb [255, 128, 64, 77] :=
  ⟨rgbaToRgb_strips_alpha.1 [255, 128, 64, 200] (by decide),
   rgbaToRgb_strips_alpha.2.1 [255, 128, 64, 200] 0 0 (by decide) (by decide) (by decide),
   rgbaToRgb_strips_alpha.2.2.1 [255, 128, 64, 200] [255, 128, 64, 77] rfl
     (fun i hi => by
       match i with
       | 0 => rfl
       | 1 => rfl
       | 2 => rfl
       | 3 => exact absurd rfl hi
       | (n + 4) => rfl)⟩
